import Mathlib

/-!
Verification development for the devpod gcloud provider
(badal-io/devpod-provider-gcloud).

Shallow embedding of the Go source:
- pkg/gcloud (Client.Get, Client.Status, Client.CheckCloudNAT),
- cmd/create.go (CreateCmd.Run, buildInstance, normalizeNetworkID,
  normalizeSubnetworkID, getMaintenancePolicy, checkCloudNATConfiguration,
  waitForInstanceReady),
- cmd/command.go (CommandCmd.Run).

External effects (control-plane calls, ssh process launches, key material)
are passed in as explicit inputs; machine integers are Int/Nat; fallible Go
code returns Except/Option.
-/

namespace Gcloud

/-- An error value returned by the Go cloud SDK.  `isAPIError` models a
successful type assertion to `*apierror.APIError`, `unwrapIsGoogleAPI` a
successful assertion of its `Unwrap()` to `*googleapi.Error`, and `code`
the HTTP code of that error.  `msg` is the error text. -/
structure GoError where
  isAPIError : Bool
  unwrapIsGoogleAPI : Bool
  code : Int
  msg : String
deriving DecidableEq, Repr

/-- An access config of a fetched instance (`computepb.AccessConfig`):
`NatIP` is a nil-able string pointer. -/
structure FetchedAccessConfig where
  natIP : Option String
deriving DecidableEq, Repr

/-- A network interface of a fetched instance. -/
structure FetchedNetworkInterface where
  accessConfigs : List FetchedAccessConfig
deriving DecidableEq, Repr

/-- The part of a `computepb.Instance` returned by the control plane that
the provider reads: the raw `Status` string and the network interfaces. -/
structure FetchedInstance where
  status : String
  networkInterfaces : List FetchedNetworkInterface
deriving DecidableEq, Repr

/-- `Client.Get` (pkg/gcloud): the control plane either returns an instance
or fails with `GoError`.  A structured 404 (an `*apierror.APIError` whose
unwrapped `*googleapi.Error` has code 404) is translated to `nil, nil`
(here: `.ok none`); every other error is returned as-is. -/
def Client.get (r : Except GoError FetchedInstance) :
    Except GoError (Option FetchedInstance) :=
  match r with
  | .ok inst => .ok (some inst)
  | .error e =>
    if e.isAPIError && e.unwrapIsGoogleAPI && e.code == 404 then .ok none
    else .error e

/-- The devpod `client.Status` enum values used by the provider. -/
inductive CStatus where
  | Running
  | Busy
  | Stopped
  | NotFound
deriving DecidableEq, Repr

/-- Go `strings.ToUpper` (ASCII range). -/
def goToUpper (s : String) : String := ⟨s.toList.map Char.toUpper⟩

/-- Go `strings.TrimSpace`: strip leading and trailing whitespace (the
ASCII whitespace characters; the additional Unicode space characters Go
also strips are not claim-relevant). -/
def goTrimSpace (s : String) : String :=
  ⟨((s.toList.dropWhile Char.isWhitespace).reverse.dropWhile
      Char.isWhitespace).reverse⟩

/-- `Client.Status` (pkg/gcloud): fetches the instance through
`Client.get`, then normalizes the raw status string (upper-case, trimmed)
into the status enum.  The second component is the returned error text
(`none` for a nil error). -/
def Client.status (r : Except GoError FetchedInstance) :
    CStatus × Option String :=
  match Client.get r with
  | .error e => (.NotFound, some e.msg)
  | .ok none => (.NotFound, none)
  | .ok (some inst) =>
    let s := goTrimSpace (goToUpper inst.status)
    if s == "RUNNING" then (.Running, none)
    else if s == "STOPPING" || s == "SUSPENDING" || s == "REPAIRING"
        || s == "PROVISIONING" || s == "STAGING" then (.Busy, none)
    else if s == "TERMINATED" then (.Stopped, none)
    else (.NotFound, some ("unexpected status: " ++ s))

/-- The status-phase attempt ceiling of `waitForInstanceReady`
(cmd/create.go: `maxAttempts := 60`). -/
def maxAttempts : Nat := 60

/-- Outcome of the status-polling loop of `waitForInstanceReady`.  Each
constructor records how many status polls were performed.  `proceed` means
control reached the code after the loop (the channel-probe phase). -/
inductive StatusPhaseResult where
  | proceed (polls : Nat)
  | queryError (msg : String) (polls : Nat)
  | timeout (msg : String) (polls : Nat)
deriving DecidableEq, Repr

/-- The status-polling loop of `waitForInstanceReady`
(`for i := 0; i < maxAttempts; i++`).  `poll i` is the result of the i-th
`client.Status` call.  `fuel` equals `max - i`, so `fuel = 0` is exactly
the loop exit condition `i >= max`. -/
def statusLoopAux (poll : Nat → CStatus × Option String) (max : Nat)
    (i : Nat) : Nat → StatusPhaseResult
  | 0 => .proceed i
  | fuel + 1 =>
    match poll i with
    | (_, some e) => .queryError ("check instance status: " ++ e) (i + 1)
    | (st, none) =>
      if st = .Running then .proceed (i + 1)
      else if i = max - 1 then
        .timeout "timeout waiting for instance to be running" (i + 1)
      else statusLoopAux poll max (i + 1) fuel

/-- The status phase of `waitForInstanceReady`, started at `i = 0`. -/
def statusLoop (poll : Nat → CStatus × Option String) (max : Nat) :
    StatusPhaseResult :=
  statusLoopAux poll max 0 max

/-- Model of a Go `exec.Cmd` (the `testCmd` ssh probe).  Modelled from the
Go os/exec documentation: a `Cmd` cannot be reused after its `Run` method
has been called; a second `Run` fails (`exec: already started`). -/
structure ExecCmd where
  started : Bool
deriving DecidableEq, Repr

/-- `Run` on a (possibly already used) command.  `freshOutcome` is whether
the probe would succeed if the command were actually (re)started. -/
def ExecCmd.run (c : ExecCmd) (freshOutcome : Bool) : ExecCmd × Bool :=
  if c.started then ({ started := true }, false)
  else ({ started := true }, freshOutcome)

/-- Outcome of the channel-probe phase of `waitForInstanceReady`: whether a
probe attempt succeeded (`ready`), how many warning-level log calls were
made, the returned error (`none` = nil), and how many probe attempts
ran. -/
structure ProbeResult where
  ready : Bool
  warns : Nat
  err : Option String
  attempts : Nat
deriving DecidableEq, Repr

/-- The ssh readiness-probe loop of `waitForInstanceReady`
(`for i := 0; i < 6; i++ { if err := testCmd.Run(); ... } `).  The same
`testCmd` object is run on every attempt.  `fresh i` says whether the i-th
attempt would succeed on a freshly constructed command.  Exhausting the
loop logs one warning (`log.Warn`) and returns a nil error. -/
def probeLoopAux (fresh : Nat → Bool) : ExecCmd → Nat → Nat → ProbeResult
  | _, i, 0 => { ready := false, warns := 1, err := none, attempts := i }
  | cmd, i, fuel + 1 =>
    let r := cmd.run (fresh i)
    if r.2 then { ready := true, warns := 0, err := none, attempts := i + 1 }
    else probeLoopAux fresh r.1 (i + 1) fuel

/-- The channel-probe phase: 6 attempts on a single freshly-constructed
command object. -/
def probeLoop (fresh : Nat → Bool) : ProbeResult :=
  probeLoopAux fresh { started := false } 0 6

/-- `listStartsWith pat s`: `pat` is a prefix of `s` (over characters).
Helper for the Go `strings` functions below. -/
def listStartsWith : List Char → List Char → Bool
  | [], _ => true
  | _ :: _, [] => false
  | a :: as, b :: bs => a = b && listStartsWith as bs

/-- Go `strings.Contains(s, pat)`: `pat` occurs as a contiguous substring
of `s`. -/
def goContains : List Char → List Char → Bool
  | s, pat =>
    listStartsWith pat s ||
      match s with
      | [] => false
      | _ :: rest => goContains rest pat

/-- Go `strings.Split(s, "/")`: split on every `'/'`.  Never returns the
empty list. -/
def splitOnSlash : List Char → List (List Char)
  | [] => [[]]
  | c :: rest =>
    if c = '/' then [] :: splitOnSlash rest
    else
      match splitOnSlash rest with
      | [] => [[c]]
      | h :: t => (c :: h) :: t

/-- The subnet-name extraction of `checkCloudNATConfiguration`
(cmd/create.go): take the last path component of a full resource path
(`.../subnetworks/{name}`), then the last component of a `region/name`
form (a slash present but no `projects/` substring). -/
def extractSubnetName (subnetwork : List Char) : List Char :=
  let s1 :=
    if goContains subnetwork "/subnetworks/".toList then
      (splitOnSlash subnetwork).getLastD []
    else subnetwork
  if goContains s1 "/".toList && !goContains s1 "projects/".toList then
    (splitOnSlash s1).getLastD []
  else s1

/-- A NAT subnetwork entry (`computepb.RouterNatSubnetworkToNat`): its
`Name` is a nil-able string pointer. -/
structure NatSubnetwork where
  name : Option (List Char)
deriving DecidableEq, Repr

/-- A NAT config attached to a router (`computepb.RouterNat`). -/
structure RouterNat where
  sourceSubnetworkIpRangesToNat : Option (List Char)
  subnetworks : Option (List NatSubnetwork)
deriving DecidableEq, Repr

/-- A router in the region (`computepb.Router`): its NAT list is
nil-able. -/
structure Router where
  nats : Option (List RouterNat)
deriving DecidableEq, Repr

/-- One NAT config applies to the subnet (inner loop body of
`Client.CheckCloudNAT`): `ALL_SUBNETWORKS_ALL_IP_RANGES` matches any
subnet; `LIST_OF_SUBNETWORKS` matches when the name of some listed subnetwork
contains `subnetName` as a substring. -/
def natMatches (subnetName : List Char) (nat : RouterNat) : Bool :=
  match nat.sourceSubnetworkIpRangesToNat with
  | none => false
  | some sourceType =>
    if sourceType = "ALL_SUBNETWORKS_ALL_IP_RANGES".toList then true
    else if sourceType = "LIST_OF_SUBNETWORKS".toList then
      match nat.subnetworks with
      | none => false
      | some subs =>
        subs.any fun sub =>
          match sub.name with
          | some nm => goContains nm subnetName
          | none => false
    else false

/-- `Client.CheckCloudNAT` (pkg/gcloud): scan every router of the region
for a NAT config that applies to the subnet.  The router list of the
region is passed in (transport errors of the iterator are handled by the
caller model). -/
def checkCloudNAT (routers : List Router) (subnetName : List Char) : Bool :=
  routers.any fun router =>
    match router.nats with
    | none => false
    | some nats => nats.any (natMatches subnetName)

/-- A token of the (very small) regular expressions used by the
normalizers: a literal character, or `[^/]+` (one or more non-slash
characters). -/
inductive RTok where
  | lit (c : Char)
  | seg
deriving DecidableEq, Repr

/-- Match a token list against a prefix of `s` (with backtracking for the
`[^/]+` tokens); anything may follow the match.  (The string comes first
so the recursion is structural on it.) -/
def matchToks : List Char → List RTok → Bool
  | _, [] => true
  | [], _ :: _ => false
  | x :: rest, .lit c :: ts => x = c && matchToks rest ts
  | x :: rest, .seg :: ts =>
    decide (x ≠ '/') && (matchToks rest ts || matchToks rest (.seg :: ts))

/-- Unanchored match (Go `regexp.MatchString`): the token list matches at
some position of `s`. -/
def matchAnywhere (ts : List RTok) (s : List Char) : Bool :=
  matchToks s ts ||
    match s with
    | [] => false
    | _ :: rest => matchAnywhere ts rest

/-- The literal characters of a string as tokens. -/
def litToks (s : String) : List RTok := s.toList.map .lit

/-- Pattern `projects/([^/]+)/global/networks/([^/]+)` of
`normalizeNetworkID`. -/
def networkPathToks : List RTok :=
  litToks "projects/" ++ [.seg] ++ litToks "/global/networks/" ++ [.seg]

/-- Pattern `projects/([^/]+)/regions/([^/]+)/subnetworks/([^/]+)` of
`normalizeSubnetworkID`. -/
def subnetPathToks : List RTok :=
  litToks "projects/" ++ [.seg] ++ litToks "/regions/" ++ [.seg]
    ++ litToks "/subnetworks/" ++ [.seg]

/-- Pattern `([^/]+)/([^/]+)`. -/
def pairToks : List RTok := [.seg, .lit '/', .seg]

/-- Pattern `([^/]+)/([^/]+)/([^/]+)`. -/
def tripleToks : List RTok := [.seg, .lit '/', .seg, .lit '/', .seg]

/-- Go `strings.Split(s, "/")` as strings, built on `splitOnSlash`. -/
def goSplitSlash (s : String) : List String :=
  (splitOnSlash s.toList).map fun l => ⟨l⟩

/-- The accelerator-shape pattern `^[agn][0-9]` of cmd/create.go
(`gpuInstancePattern`), anchored at the start of the string. -/
def gpuInstanceMatch (machineType : String) : Bool :=
  match machineType.toList with
  | c1 :: c2 :: _ => (c1 = 'a' || c1 = 'g' || c1 = 'n') && c2.isDigit
  | _ => false

/-- `getMaintenancePolicy` (cmd/create.go). -/
def getMaintenancePolicy (machineType : String) : String :=
  if gpuInstanceMatch machineType then "TERMINATE" else "MIGRATE"

/-- The provider options consumed from the environment
(pkg/options.Options, as used by cmd/create.go and cmd/command.go). -/
structure Options where
  project : String
  zone : String
  machineType : String
  machineID : String
  machineFolder : String
  diskSize : String
  diskImage : String
  network : String
  subnetwork : String
  publicIP : Bool
  tag : String
  serviceAccount : String
deriving DecidableEq, Repr

/-- `zone[:strings.LastIndex(zone, "-")]`: the characters strictly before
the last `'-'`.  (Go panics when no `'-'` is present; that case is not
modelled and yields the empty string.) -/
def regionOfZone (zone : String) : String :=
  ⟨(((zone.toList.reverse.dropWhile (· ≠ '-')).drop 1)).reverse⟩

/-- `normalizeNetworkID` (cmd/create.go).  Total: every non-empty network
reference is normalized to some full network path; there is no error
case. -/
def normalizeNetworkID (opts : Options) : Option String :=
  let network := opts.network
  if network.toList.length = 0 then none
  else if matchAnywhere networkPathToks network.toList then some network
  else if matchAnywhere pairToks network.toList then
    let s := goSplitSlash network
    some ("projects/" ++ s.getD 0 "" ++ "/global/networks/" ++ s.getD 1 "")
  else some ("projects/" ++ opts.project ++ "/global/networks/" ++ network)

/-- `normalizeSubnetworkID` (cmd/create.go).  Total: every non-empty
subnet reference is normalized to some full subnetwork path; there is no
error case. -/
def normalizeSubnetworkID (opts : Options) : Option String :=
  let sn := goTrimSpace opts.subnetwork
  if sn.toList.length = 0 then none
  else
    let region := regionOfZone opts.zone
    if matchAnywhere subnetPathToks sn.toList then some sn
    else if matchAnywhere tripleToks sn.toList then
      let s := goSplitSlash sn
      some ("projects/" ++ s.getD 0 "" ++ "/regions/" ++ s.getD 1 ""
        ++ "/subnetworks/" ++ s.getD 2 "")
    else if matchAnywhere pairToks sn.toList then
      let s := goSplitSlash sn
      some ("projects/" ++ opts.project ++ "/regions/" ++ s.getD 0 ""
        ++ "/subnetworks/" ++ s.getD 1 "")
    else some ("projects/" ++ opts.project ++ "/regions/" ++ region
      ++ "/subnetworks/" ++ sn)

/-- Go `strconv.Atoi`: optional sign, one or more decimal digits, value
within the 64-bit signed range. -/
def goAtoi (s : String) : Except String Int :=
  let (neg, ds) :=
    match s.toList with
    | '+' :: rest => (false, rest)
    | '-' :: rest => (true, rest)
    | l => (false, l)
  if ds = [] then .error "invalid syntax"
  else if ds.all Char.isDigit then
    let n : Nat := ds.foldl (fun acc c => acc * 10 + (c.toNat - '0'.toNat)) 0
    let v : Int := if neg then -(n : Int) else (n : Int)
    if v < -(2 ^ 63) ∨ 2 ^ 63 ≤ v then .error "value out of range"
    else .ok v
  else .error "invalid syntax"

/-- A metadata item (`computepb.Items`). -/
structure Items where
  key : String
  value : String
deriving DecidableEq, Repr

/-- An access config of the instance spec (`computepb.AccessConfig`). -/
structure AccessConfig where
  name : String
  networkTier : String
deriving DecidableEq, Repr

/-- A service account attached to the spec. -/
structure ServiceAccount where
  email : String
  scopes : List String
deriving DecidableEq, Repr

/-- The boot disk of the spec (`computepb.AttachedDisk` with its
`InitializeParams` inlined). -/
structure AttachedDisk where
  autoDelete : Bool
  boot : Bool
  deviceName : String
  diskSizeGb : Int
  diskType : String
  sourceImage : String
deriving DecidableEq, Repr

/-- A network interface of the spec. -/
structure NetworkInterface where
  network : Option String
  subnetwork : Option String
  accessConfigs : List AccessConfig
deriving DecidableEq, Repr

/-- The instance creation request built by `buildInstance`
(`computepb.Instance`). -/
structure Instance where
  automaticRestart : Bool
  onHostMaintenance : String
  metadata : List Items
  machineType : String
  disks : List AttachedDisk
  tags : Option (List String)
  networkInterfaces : List NetworkInterface
  zone : String
  name : String
  serviceAccounts : List ServiceAccount
deriving DecidableEq, Repr

/-- The bootstrap script embedded for proxied (no public address) mode.
The literal shell text (creating the devpod user, granting passwordless
sudo, installing the ssh key read back from instance metadata) is
abridged here; only its presence under the `startup-script` metadata key
is claim-relevant. -/
def startupScript : String :=
  "#!/bin/bash\n# create devpod user with passwordless sudo and install\n# the ssh public key from instance metadata\n"

/-- Results of the key-material externals used by `buildInstance`:
`getPublicKeyBase` is `ssh.GetPublicKeyBase(MachineFolder)`, and
`decodeResult` is `base64.StdEncoding.DecodeString` applied to that
value. -/
structure SshEnv where
  getPublicKeyBase : Except String String
  decodeResult : Except String String
deriving Repr

/-- The error cases of `buildInstance`. -/
inductive BuildError where
  | parseDiskSize (msg : String)
  | publicKey (msg : String)
  | base64Decode (msg : String)
deriving DecidableEq, Repr

/-- `getAccessConfig` (cmd/create.go). -/
def getAccessConfig (opts : Options) : List AccessConfig :=
  if opts.publicIP then
    [{ name := "External NAT", networkTier := "STANDARD" }]
  else []

/-- `buildInstanceTags` (cmd/create.go). -/
def buildInstanceTags (opts : Options) : Option (List String) :=
  if opts.tag.toList.length = 0 then none else some [opts.tag]

/-- `buildInstance` (cmd/create.go): parse the disk size, obtain the ssh
public key, and assemble the creation request.  The only error paths are
the disk-size parse and the key externals. -/
def buildInstance (opts : Options) (env : SshEnv) :
    Except BuildError Instance := do
  let diskSize ←
    match goAtoi opts.diskSize with
    | .error m => Except.error (BuildError.parseDiskSize m)
    | .ok n => Except.ok n
  let _publicKeyBase ←
    match env.getPublicKeyBase with
    | .error m => Except.error (BuildError.publicKey m)
    | .ok k => Except.ok k
  let publicKey ←
    match env.decodeResult with
    | .error m => Except.error (BuildError.base64Decode m)
    | .ok k => Except.ok k
  let serviceAccounts :=
    if opts.serviceAccount ≠ "" then
      [{ email := opts.serviceAccount
         scopes := ["https://www.googleapis.com/auth/cloud-platform"] }]
    else []
  let metadataItems :=
    [({ key := "ssh-keys", value := "devpod:" ++ publicKey } : Items)]
  let metadataItems :=
    if !opts.publicIP then
      metadataItems ++ [{ key := "startup-script", value := startupScript }]
    else metadataItems
  return {
    automaticRestart := true
    onHostMaintenance := getMaintenancePolicy opts.machineType
    metadata := metadataItems
    machineType := "projects/" ++ opts.project ++ "/zones/" ++ opts.zone
      ++ "/machineTypes/" ++ opts.machineType
    disks := [{
      autoDelete := true
      boot := true
      deviceName := opts.machineID
      diskSizeGb := diskSize
      diskType := "projects/" ++ opts.project ++ "/zones/" ++ opts.zone
        ++ "/diskTypes/pd-balanced"
      sourceImage := opts.diskImage }]
    tags := buildInstanceTags opts
    networkInterfaces := [{
      network := normalizeNetworkID opts
      subnetwork := normalizeSubnetworkID opts
      accessConfigs := getAccessConfig opts }]
    zone := "projects/" ++ opts.project ++ "/zones/" ++ opts.zone
    name := opts.machineID
    serviceAccounts := serviceAccounts }

/-- Overall result of `waitForInstanceReady`: the returned error and the
number of warning-level log calls. -/
structure WaitResult where
  err : Option String
  warns : Nat
deriving DecidableEq, Repr

/-- `waitForInstanceReady` (cmd/create.go): the status phase followed, on
success, by the channel-probe phase.  Status-phase failures are returned
as errors; the probe phase never produces an error. -/
def waitForInstanceReady (poll : Nat → CStatus × Option String)
    (fresh : Nat → Bool) : WaitResult :=
  match statusLoop poll maxAttempts with
  | .queryError m _ => { err := some m, warns := 0 }
  | .timeout m _ => { err := some m, warns := 0 }
  | .proceed _ =>
    let pr := probeLoop fresh
    { err := pr.err, warns := pr.warns }

/-- The error cases of `CreateCmd.Run` (error texts abridged into
structured constructors; the NAT-missing error text embeds the normalized
subnet name). -/
inductive CreateError where
  | clientInit (msg : String)
  | subnetworkMissing
  | natCheckFailed (msg : String)
  | natMissing (subnetName : List Char)
  | build (e : BuildError)
  | createFailed (msg : String)
  | waitFailed (msg : String)
  | sshConfigWrite (msg : String)
deriving DecidableEq, Repr

/-- `checkCloudNATConfiguration` (cmd/create.go): fail when no subnetwork
is configured; otherwise extract the bare subnet name and consult
`Client.CheckCloudNAT` over the routers of the region (`routers` is the
router-listing result; `.error` is a transport failure of the listing). -/
def checkCloudNATConfiguration (subnetwork : List Char)
    (routers : Except GoError (List Router)) : Option CreateError :=
  if subnetwork = [] then some .subnetworkMissing
  else
    let subnetName := extractSubnetName subnetwork
    match routers with
    | .error e => some (.natCheckFailed e.msg)
    | .ok rs =>
      if checkCloudNAT rs subnetName then none
      else some (.natMissing subnetName)

/-- The external results consumed by one `CreateCmd.Run` invocation:
client construction, the router listing of the NAT preflight, the
IAP-firewall advisory check, key material for `buildInstance`, the
`client.Create` call, the status polls and ssh probes of
`waitForInstanceReady`, and the ssh-config write. -/
structure RunEnv where
  options : Options
  clientInitError : Option String
  routers : Except GoError (List Router)
  iapCheckOk : Bool
  sshEnv : SshEnv
  createError : Option String
  poll : Nat → CStatus × Option String
  fresh : Nat → Bool
  sshWriteError : Option String

/-- Steps of `CreateCmd.Run` from `buildInstance` on (after the preflight
checks).  Returns the command error and the number of `client.Create`
calls made. -/
def runAfterPreflight (env : RunEnv) : Option CreateError × Nat :=
  match buildInstance env.options env.sshEnv with
  | .error e => (some (.build e), 0)
  | .ok _ =>
    match env.createError with
    | some m => (some (.createFailed m), 1)
    | none =>
      if !env.options.publicIP then
        match (waitForInstanceReady env.poll env.fresh).err with
        | some m => (some (.waitFailed ("waiting for instance ready: " ++ m)), 1)
        | none =>
          match env.sshWriteError with
          | some m => (some (.sshConfigWrite m), 1)
          | none => (none, 1)
      else (none, 1)

/-- `CreateCmd.Run` (cmd/create.go): construct the client; in proxied
mode run the Cloud NAT preflight (fatal on failure) and the IAP firewall
check (advisory only — a failure is logged and execution continues);
then build and create the instance; in proxied mode additionally await
readiness and write the ssh config.  Returns the command error and the
number of `client.Create` calls made. -/
def createRun (env : RunEnv) : Option CreateError × Nat :=
  match env.clientInitError with
  | some m => (some (.clientInit m), 0)
  | none =>
    if !env.options.publicIP then
      match checkCloudNATConfiguration env.options.subnetwork.toList
          env.routers with
      | some e => (some e, 0)
      | none => runAfterPreflight env
    else runAfterPreflight env

/-- The outcome of `CommandCmd.Run` (cmd/command.go), with error texts
kept where claim-relevant. -/
inductive CommandOutcome where
  | errMissingCommand
  | errPrivateKey (msg : String)
  | errClient (msg : String)
  | errGet (e : GoError)
  | errNoInstance
  | errNoNatIP
  | errProxiedSsh (msg : String)
  | errDirectDial (msg : String)
  | errDirectRun (msg : String)
  | ok
deriving DecidableEq, Repr

/-- `instance.NetworkInterfaces[0].AccessConfigs[0].NatIP` as an optional
lookup (the Go code guards the indexing with length checks). -/
def firstNatIP (inst : FetchedInstance) : Option String :=
  match inst.networkInterfaces with
  | [] => none
  | ni :: _ =>
    match ni.accessConfigs with
    | [] => none
    | ac :: _ => ac.natIP

/-- The external results consumed by one `CommandCmd.Run` invocation.
`proxiedAttempt i` is the outcome the i-th ssh launch through the IAP
ProxyCommand would have; `directDial`/`directRun` are the
`ssh.NewSSHClient` and `ssh.Run` outcomes of direct mode. -/
structure CommandEnv where
  command : String
  publicIP : Bool
  privateKey : Except String Unit
  clientInitError : Option String
  getResult : Except GoError FetchedInstance
  proxiedAttempt : Nat → Except String Unit
  directDial : Except String Unit
  directRun : Except String Unit

/-- `CommandCmd.Run` (cmd/command.go): validate the command text, load
the key, build the client, fetch the instance, then run the remote
command — in proxied mode one `ssh -F <config>` launch (no retry loop),
in direct mode one `ssh.NewSSHClient` + `ssh.Run`.  The second component
counts command-channel launch attempts. -/
def commandRun (env : CommandEnv) : CommandOutcome × Nat :=
  if env.command = "" then (.errMissingCommand, 0)
  else
    match env.privateKey with
    | .error m => (.errPrivateKey ("load private key: " ++ m), 0)
    | .ok _ =>
      match env.clientInitError with
      | some m => (.errClient m, 0)
      | none =>
        match Client.get env.getResult with
        | .error e => (.errGet e, 0)
        | .ok none => (.errNoInstance, 0)
        | .ok (some inst) =>
          if env.publicIP && (firstNatIP inst).isNone then (.errNoNatIP, 0)
          else if !env.publicIP then
            match env.proxiedAttempt 0 with
            | .error m => (.errProxiedSsh ("ssh via IAP ProxyCommand: " ++ m), 1)
            | .ok _ => (.ok, 1)
          else
            match env.directDial with
            | .error m => (.errDirectDial ("create ssh client: " ++ m), 1)
            | .ok _ =>
              match env.directRun with
              | .error m => (.errDirectRun m, 1)
              | .ok _ => (.ok, 1)

/-- The concrete environment of the C2 witness: proxied mode, a named
subnet, and a region with no routers at all (so no NAT config applies). -/
def c2Env : RunEnv :=
  { options := {
      project := "proj"
      zone := "us-central1-a"
      machineType := "e2-medium"
      machineID := "m"
      machineFolder := "/f"
      diskSize := "30"
      diskImage := "img"
      network := "mynet"
      subnetwork := "mysub"
      publicIP := false
      tag := ""
      serviceAccount := "" }
    clientInitError := none
    routers := .ok []
    iapCheckOk := true
    sshEnv := { getPublicKeyBase := .ok "K", decodeResult := .ok "D" }
    createError := none
    poll := fun _ => (.Running, none)
    fresh := fun _ => true
    sshWriteError := none }

/-- The concrete environment of the C5 counterexample: proxied mode with
a command channel whose every launch attempt fails. -/
def c5Env : CommandEnv :=
  { command := "uptime"
    publicIP := false
    privateKey := .ok ()
    clientInitError := none
    getResult := .ok { status := "RUNNING", networkInterfaces := [] }
    proxiedAttempt := fun _ => .error "boom"
    directDial := .ok ()
    directRun := .ok () }

/-- Whether a Go-style fallible result succeeded. -/
def exceptIsOk : Except ε α → Bool
  | .ok _ => true
  | .error _ => false

/-- The concrete options of the C6 counterexample: a well-formed disk
size but a network reference (`a/b/c`) matching none of the accepted
textual forms (full path, `project/name`, bare name). -/
def c6Opts : Options :=
  { project := "proj"
    zone := "us-central1-a"
    machineType := "e2-medium"
    machineID := "m"
    machineFolder := "/f"
    diskSize := "30"
    diskImage := "img"
    network := "a/b/c"
    subnetwork := ""
    publicIP := true
    tag := ""
    serviceAccount := "" }

/-- Key material for the C6 counterexample (externals succeed). -/
def c6SshEnv : SshEnv :=
  { getPublicKeyBase := .ok "KEY", decodeResult := .ok "PK" }

/-- A structured-404 error value for the C9 witness. -/
def err404 : GoError :=
  { isAPIError := true, unwrapIsGoogleAPI := true, code := 404, msg := "not found" }

/-- A plain transport error for the C9 witness. -/
def err500 : GoError :=
  { isAPIError := false, unwrapIsGoogleAPI := false, code := 500, msg := "boom" }

/-- The full resource path form of a subnet reference. -/
def subnetFullPath (project region name : List Char) : List Char :=
  "projects/".toList ++ project ++ "/regions/".toList ++ region
    ++ "/subnetworks/".toList ++ name

/-! ## Helper lemmas -/

/-- A ssh probe `Run` on an already-started command always fails. -/
theorem ExecCmd.run_started (b : Bool) :
    ExecCmd.run { started := true } b = ({ started := true }, false) := rfl

/-- Once the probe command has been started, the remaining probe loop can
never succeed: it runs out its fuel and ends in the warn-and-return-nil
exit. -/
theorem probeLoopAux_started (fresh : Nat → Bool) :
    ∀ fuel i, probeLoopAux fresh { started := true } i fuel
      = { ready := false, warns := 1, err := none, attempts := i + fuel } := by
  intro fuel
  induction fuel with
  | zero => intro i; simp [probeLoopAux]
  | succ f ih =>
    intro i
    simp only [probeLoopAux, ExecCmd.run_started]
    rw [ih (i + 1)]
    simp
    omega

/-- The status-polling loop times out after exactly `max` polls when every
poll returns a nil error and a status other than `Running`. -/
theorem statusLoopAux_timeout (poll : Nat → CStatus × Option String)
    (max : Nat)
    (h : ∀ i, i < max → (poll i).2 = none ∧ (poll i).1 ≠ CStatus.Running) :
    ∀ fuel i, i + fuel = max → 0 < fuel →
      statusLoopAux poll max i fuel
        = .timeout "timeout waiting for instance to be running" max := by
  intro fuel
  induction fuel with
  | zero => intro i _ hpos; omega
  | succ f ih =>
    intro i hsum _
    have hi : i < max := by omega
    obtain ⟨h2, h1⟩ := h i hi
    rcases hp : poll i with ⟨st, e⟩
    rw [hp] at h2 h1
    simp only at h2 h1
    subst h2
    by_cases hf : f = 0
    · subst hf
      have hne : i = max - 1 := by omega
      simp only [statusLoopAux, hp]
      rw [if_neg h1, if_pos hne]
      have hmax : i + 1 = max := by omega
      rw [hmax]
    · have hne : ¬(i = max - 1) := by omega
      have hrec := ih (i + 1) (by omega) (by omega)
      simp only [statusLoopAux, hp]
      rw [if_neg h1, if_neg hne, hrec]

/-! ## Claims -/

/-- C10: in the channel-probe phase the single `testCmd` object is run on
every attempt, and a `Run` on an already-started command fails
unconditionally; consequently the probe reports readiness exactly when
its first attempt would succeed (attempts 2..6 can never succeed), and it
never returns an error. -/
theorem c10_probe_first_attempt_only :
    (∀ b : Bool, (ExecCmd.run { started := true } b).2 = false)
    ∧ ∀ fresh : Nat → Bool,
        (probeLoop fresh).ready = fresh 0 ∧ (probeLoop fresh).err = none := by
  refine ⟨fun b => rfl, fun fresh => ?_⟩
  cases h : fresh 0 with
  | false =>
    have : probeLoop fresh = probeLoopAux fresh { started := true } 1 5 := by
      simp [probeLoop, probeLoopAux, ExecCmd.run, h]
    rw [this, probeLoopAux_started]
    simp
  | true =>
    have : probeLoop fresh
        = { ready := true, warns := 0, err := none, attempts := 1 } := by
      simp [probeLoop, probeLoopAux, ExecCmd.run, h]
    rw [this]
    simp

/-- C3: when the status phase succeeds and every ssh probe attempt fails,
`waitForInstanceReady` exhausts the 6-attempt probe ceiling, logs exactly
one warning, and still returns a nil error — probe timeout is never
fatal. -/
theorem c3_probe_timeout_nonfatal (poll : Nat → CStatus × Option String)
    (fresh : Nat → Bool) (k : Nat)
    (hst : statusLoop poll maxAttempts = .proceed k)
    (hfr : ∀ i, fresh i = false) :
    waitForInstanceReady poll fresh = { err := none, warns := 1 }
    ∧ (probeLoop fresh).attempts = 6 := by
  have hp : probeLoop fresh = probeLoopAux fresh { started := true } 1 5 := by
    simp [probeLoop, probeLoopAux, ExecCmd.run, hfr 0]
  have hp6 : probeLoop fresh
      = { ready := false, warns := 1, err := none, attempts := 6 } := by
    rw [hp, probeLoopAux_started]
  constructor
  · unfold waitForInstanceReady
    rw [hst, hp6]
  · rw [hp6]

/-- C3 witness: with a status sequence that is immediately `Running` and a
probe that always fails, the waiter returns a nil error with exactly one
warning after 6 probe attempts. -/
theorem c3_probe_timeout_nonfatal_witness :
    waitForInstanceReady (fun _ => (.Running, none)) (fun _ => false)
      = { err := none, warns := 1 }
    ∧ (probeLoop (fun _ => (false : Bool))).attempts = 6 :=
  c3_probe_timeout_nonfatal (fun _ => (.Running, none)) (fun _ => false) 1
    (by decide) (fun _ => rfl)

/-- C4: when every status poll succeeds (nil error) but never observes
`Running`, the status phase performs exactly the configured ceiling of 60
polls and then returns the status-timeout error. -/
theorem c4_status_phase_exact_ceiling (poll : Nat → CStatus × Option String)
    (h : ∀ i, i < maxAttempts →
      (poll i).2 = none ∧ (poll i).1 ≠ CStatus.Running) :
    statusLoop poll maxAttempts
      = .timeout "timeout waiting for instance to be running" 60 := by
  have := statusLoopAux_timeout poll maxAttempts h maxAttempts 0 (by rfl)
    (by decide)
  simpa [statusLoop, maxAttempts] using this

/-- C4 witness: a status sequence that is forever `Busy` (with nil errors)
reaches the timeout error after exactly 60 polls. -/
theorem c4_status_phase_exact_ceiling_witness :
    statusLoop (fun _ => (CStatus.Busy, none)) maxAttempts
      = .timeout "timeout waiting for instance to be running" 60 :=
  c4_status_phase_exact_ceiling (fun _ => (.Busy, none))
    (by
      intro i _
      refine ⟨rfl, ?_⟩
      simp)

/-- C1 counterexample: with an unrecognized raw status string (`"WEIRD"`),
`Client.Status` returns an error, and the status phase aborts after a
single poll with the wrapped query error — it does not keep polling, and
the hard failure is not the attempt-ceiling timeout. -/
theorem c1_counterexample :
    statusLoop
        (fun _ =>
          Client.status (.ok { status := "WEIRD", networkInterfaces := [] }))
        maxAttempts
      = .queryError "check instance status: unexpected status: WEIRD" 1
    ∧ statusLoop
        (fun _ =>
          Client.status (.ok { status := "WEIRD", networkInterfaces := [] }))
        maxAttempts
      ≠ .timeout "timeout waiting for instance to be running" 60 := by
  decide

/-- C1 (amended): a `NotFound` observation with a nil error is treated as
not-yet and retried until the 60-poll ceiling yields the timeout error;
but an unrecognized (`Unknown`) raw status string makes `Client.Status`
return an error, which the status phase immediately propagates as a hard
failure (`check instance status: unexpected status: ...`) after that very
poll. -/
theorem c1_amended_status_phase :
    (∀ poll : Nat → CStatus × Option String,
      (∀ i, i < maxAttempts → poll i = (CStatus.NotFound, none)) →
      statusLoop poll maxAttempts
        = .timeout "timeout waiting for instance to be running" 60)
    ∧ (∀ (poll : Nat → CStatus × Option String) (st : CStatus) (e : String),
        poll 0 = (st, some e) →
        statusLoop poll maxAttempts
          = .queryError ("check instance status: " ++ e) 1)
    ∧ (∀ inst : FetchedInstance,
        goTrimSpace (goToUpper inst.status) ∉ ["RUNNING", "STOPPING",
          "SUSPENDING", "REPAIRING", "PROVISIONING", "STAGING",
          "TERMINATED"] →
        Client.status (.ok inst)
          = (CStatus.NotFound,
              some ("unexpected status: "
                ++ goTrimSpace (goToUpper inst.status)))) := by
  refine ⟨?_, ?_, ?_⟩
  · intro poll hnf
    have h : ∀ i, i < maxAttempts →
        (poll i).2 = none ∧ (poll i).1 ≠ CStatus.Running := by
      intro i hi
      rw [hnf i hi]
      exact ⟨rfl, by simp⟩
    have := statusLoopAux_timeout poll maxAttempts h maxAttempts 0 (by rfl)
      (by decide)
    simpa [statusLoop, maxAttempts] using this
  · intro poll st e hp
    show statusLoopAux poll 60 0 (59 + 1)
      = .queryError ("check instance status: " ++ e) 1
    simp only [statusLoopAux, hp]
  · intro inst h
    simp only [List.mem_cons, List.mem_singleton, not_or] at h
    obtain ⟨h1, h2, h3, h4, h5, h6, h7, -⟩ := h
    simp [Client.status, Client.get, h1, h2, h3, h4, h5, h6, h7]

/-- C1 witness: instantiating the amended claim — a constantly-NotFound
(nil-error) sequence times out after 60 polls, a first-poll error aborts
immediately, and the raw status `"weird"` maps to the unexpected-status
error. -/
theorem c1_amended_status_phase_witness :
    statusLoop (fun _ => (CStatus.NotFound, none)) maxAttempts
      = .timeout "timeout waiting for instance to be running" 60
    ∧ statusLoop (fun _ => (CStatus.Busy, some "boom")) maxAttempts
      = .queryError "check instance status: boom" 1
    ∧ Client.status (.ok { status := "weird", networkInterfaces := [] })
      = (CStatus.NotFound, some "unexpected status: WEIRD") :=
  ⟨c1_amended_status_phase.1 (fun _ => (CStatus.NotFound, none))
      (by intro i _; rfl),
    c1_amended_status_phase.2.1 (fun _ => (CStatus.Busy, some "boom"))
      CStatus.Busy "boom" rfl,
    c1_amended_status_phase.2.2
      { status := "weird", networkInterfaces := [] } (by decide)⟩

/-- C2: in proxied mode (public-address flag false), a failed NAT
preflight — an empty subnet reference, or a router list in which no NAT
config applies to the subnet — makes `CreateCmd.Run` return an error
with zero `client.Create` calls: no resource is created by a failed
preflight. -/
theorem c2_nat_preflight_blocks_create (env : RunEnv)
    (hpub : env.options.publicIP = false)
    (hfail : env.options.subnetwork.toList = []
      ∨ ∃ rs, env.routers = .ok rs
          ∧ checkCloudNAT rs
              (extractSubnetName env.options.subnetwork.toList) = false) :
    (createRun env).1.isSome ∧ (createRun env).2 = 0 := by
  unfold createRun
  cases hc : env.clientInitError with
  | some m => simp
  | none =>
    rw [hpub]
    rcases hfail with hempty | ⟨rs, hrs, hnat⟩
    · simp only [String.toList] at hempty
      simp [checkCloudNATConfiguration, hempty]
    · simp only [String.toList] at hnat
      by_cases hemp : env.options.subnetwork.data = []
      · simp [checkCloudNATConfiguration, hemp]
      · simp [checkCloudNATConfiguration, hemp, hrs, hnat]

/-- C2 witness: in the concrete no-NAT environment, `CreateCmd.Run` fails
and performs zero create calls. -/
theorem c2_nat_preflight_blocks_create_witness :
    (createRun c2Env).1.isSome ∧ (createRun c2Env).2 = 0 :=
  c2_nat_preflight_blocks_create c2Env rfl (.inr ⟨[], rfl, rfl⟩)

/-- C5 counterexample: with every channel launch failing, the proxied
branch of `CommandCmd.Run` performs exactly one launch attempt (no retry
ceiling, no backoff) and returns the wrapped underlying failure text with
no attempt count. -/
theorem c5_counterexample :
    commandRun c5Env = (.errProxiedSsh "ssh via IAP ProxyCommand: boom", 1) := by
  rfl

/-- C5 (amended): once `CommandCmd.Run` reaches the channel launch, it
makes exactly one launch attempt in either mode; in proxied mode a launch
failure is returned wrapped as `ssh via IAP ProxyCommand: <cause>` (no
retries, no attempt count), and a launch success returns nil. -/
theorem c5_amended_single_attempt (env : CommandEnv)
    (inst : FetchedInstance)
    (h1 : env.command ≠ "")
    (h2 : env.privateKey = .ok ())
    (h3 : env.clientInitError = none)
    (h4 : Client.get env.getResult = .ok (some inst))
    (h5 : env.publicIP = true → (firstNatIP inst).isSome) :
    (commandRun env).2 = 1
    ∧ (env.publicIP = false →
        ((∃ m, env.proxiedAttempt 0 = .error m
            ∧ commandRun env
              = (.errProxiedSsh ("ssh via IAP ProxyCommand: " ++ m), 1))
          ∨ (env.proxiedAttempt 0 = .ok ()
              ∧ commandRun env = (.ok, 1)))) := by
  cases hpub : env.publicIP with
  | false =>
    cases hpa : env.proxiedAttempt 0 with
    | error m =>
      have hcr : commandRun env
          = (.errProxiedSsh ("ssh via IAP ProxyCommand: " ++ m), 1) := by
        simp [commandRun, h1, h2, h3, h4, hpub, hpa]
      exact ⟨by rw [hcr], fun _ => .inl ⟨m, rfl, hcr⟩⟩
    | ok u =>
      cases u
      have hcr : commandRun env = (.ok, 1) := by
        simp [commandRun, h1, h2, h3, h4, hpub, hpa]
      exact ⟨by rw [hcr], fun _ => .inr ⟨rfl, hcr⟩⟩
  | true =>
    refine ⟨?_, fun hcon => absurd hcon (by decide)⟩
    have h6 := h5 hpub
    have hni : (firstNatIP inst).isNone = false := by
      cases hfi : firstNatIP inst
      · rw [hfi] at h6; simp at h6
      · simp [hfi]
    cases hdd : env.directDial with
    | error m => simp [commandRun, h1, h2, h3, h4, hpub, hni, hdd]
    | ok u =>
      cases u
      cases hdr : env.directRun with
      | error m => simp [commandRun, h1, h2, h3, h4, hpub, hni, hdd, hdr]
      | ok v =>
        cases v
        simp [commandRun, h1, h2, h3, h4, hpub, hni, hdd, hdr]

/-- C5 witness: in the concrete all-failing proxied environment, exactly
one launch attempt is made and its failure is returned wrapped. -/
theorem c5_amended_single_attempt_witness :
    (commandRun c5Env).2 = 1
    ∧ (c5Env.publicIP = false →
        ((∃ m, c5Env.proxiedAttempt 0 = .error m
            ∧ commandRun c5Env
              = (.errProxiedSsh ("ssh via IAP ProxyCommand: " ++ m), 1))
          ∨ (c5Env.proxiedAttempt 0 = .ok ()
              ∧ commandRun c5Env = (.ok, 1)))) :=
  c5_amended_single_attempt c5Env { status := "RUNNING", networkInterfaces := [] }
    (by decide) rfl rfl rfl (by intro h; cases h)

/-- C6 counterexample: the network reference `a/b/c` matches none of the
accepted forms (in particular not the full-path pattern), yet
`buildInstance` succeeds, silently guessing the network
`projects/a/global/networks/b` (dropping `/c`) instead of returning a
hard error. -/
theorem c6_counterexample :
    exceptIsOk (buildInstance c6Opts c6SshEnv) = true
    ∧ normalizeNetworkID c6Opts = some "projects/a/global/networks/b"
    ∧ matchAnywhere networkPathToks "a/b/c".toList = false := by
  decide

/-- C6 (amended): malformed disk-size input is the only hard error of
`buildInstance` (given the key-material externals succeed): the build
fails exactly when the disk-size parse fails; the network/subnet
normalizers are total and never reject an input, so malformed references
are normalized best-effort instead of erroring. -/
theorem c6_amended_only_disk_size_errors (opts : Options) (env : SshEnv)
    (k d : String)
    (h1 : env.getPublicKeyBase = .ok k) (h2 : env.decodeResult = .ok d) :
    exceptIsOk (buildInstance opts env) = exceptIsOk (goAtoi opts.diskSize)
    ∧ (∃ v, normalizeNetworkID opts = v)
    ∧ (∃ v, normalizeSubnetworkID opts = v) := by
  refine ⟨?_, ⟨_, rfl⟩, ⟨_, rfl⟩⟩
  unfold buildInstance
  rw [h1, h2]
  cases ha : goAtoi opts.diskSize with
  | error m => simp [ha, exceptIsOk, bind, Except.bind]
  | ok n => simp [ha, exceptIsOk, bind, Except.bind, pure, Except.pure]

/-- C6 witness: with the concrete options the build succeeds because the
disk size parses. -/
theorem c6_amended_only_disk_size_errors_witness :
    exceptIsOk (buildInstance c6Opts c6SshEnv) = exceptIsOk (goAtoi "30")
    ∧ (∃ v, normalizeNetworkID c6Opts = v)
    ∧ (∃ v, normalizeSubnetworkID c6Opts = v) :=
  c6_amended_only_disk_size_errors c6Opts c6SshEnv "KEY" "PK" rfl rfl

/-- C7: the maintenance-policy selector returns `TERMINATE` exactly for
machine shapes starting with `a`, `g` or `n` followed immediately by a
decimal digit, and `MIGRATE` for every other shape string. -/
theorem c7_maintenance_policy (s : String) :
    (getMaintenancePolicy s = "TERMINATE"
      ↔ ∃ c d rest, s.toList = c :: d :: rest
          ∧ (c = 'a' ∨ c = 'g' ∨ c = 'n') ∧ '0' ≤ d ∧ d ≤ '9')
    ∧ (getMaintenancePolicy s = "MIGRATE"
      ↔ ¬∃ c d rest, s.toList = c :: d :: rest
          ∧ (c = 'a' ∨ c = 'g' ∨ c = 'n') ∧ '0' ≤ d ∧ d ≤ '9') := by
  have hmatch : gpuInstanceMatch s = true
      ↔ ∃ c d rest, s.toList = c :: d :: rest
          ∧ (c = 'a' ∨ c = 'g' ∨ c = 'n') ∧ '0' ≤ d ∧ d ≤ '9' := by
    unfold gpuInstanceMatch
    cases hl : s.toList with
    | nil => simp
    | cons c1 tl =>
      cases tl with
      | nil => simp
      | cons c2 rest =>
        simp only [Bool.and_eq_true, Bool.or_eq_true, decide_eq_true_eq]
        constructor
        · rintro ⟨hc, hd⟩
          refine ⟨c1, c2, rest, rfl, or_assoc.mp hc, ?_⟩
          simpa [Char.isDigit, Char.le_def] using hd
        · rintro ⟨c, d, r, heq, hc, hd⟩
          obtain ⟨rfl, rfl, rfl⟩ : c1 = c ∧ c2 = d ∧ rest = r := by
            injection heq with e1 e2
            injection e2 with e2 e3
            exact ⟨e1, e2, e3⟩
          refine ⟨or_assoc.mpr hc, ?_⟩
          simpa [Char.isDigit, Char.le_def] using hd
  constructor
  · rw [← hmatch]
    unfold getMaintenancePolicy
    cases h : gpuInstanceMatch s <;> simp
  · rw [← hmatch]
    unfold getMaintenancePolicy
    cases h : gpuInstanceMatch s <;> simp

/-- C9: `Client.Get` translates exactly the structured-404 condition into
a nil instance with a nil error, returns every other failure as an error,
and wraps a successful fetch in `some`. -/
theorem c9_get_404_sentinel (e : GoError) (inst : FetchedInstance) :
    (Client.get (.error e) = .ok none
      ↔ e.isAPIError = true ∧ e.unwrapIsGoogleAPI = true ∧ e.code = 404)
    ∧ (¬(e.isAPIError = true ∧ e.unwrapIsGoogleAPI = true ∧ e.code = 404)
        → Client.get (.error e) = .error e)
    ∧ Client.get (.ok inst) = .ok (some inst) := by
  refine ⟨?_, ?_, rfl⟩
  · simp only [Client.get]
    by_cases h : e.isAPIError = true ∧ e.unwrapIsGoogleAPI = true
        ∧ e.code = 404
    · obtain ⟨ha, hb, hc⟩ := h
      simp [ha, hb, hc]
    · constructor
      · intro heq
        by_contra
        have : ¬(e.isAPIError && e.unwrapIsGoogleAPI && e.code == 404)
            = true := by
          simpa [Bool.and_eq_true, decide_eq_true_eq, and_assoc] using h
        rw [if_neg this] at heq
        cases heq
      · intro hcon
        exact absurd hcon h
  · intro h
    simp only [Client.get]
    have : ¬(e.isAPIError && e.unwrapIsGoogleAPI && e.code == 404)
        = true := by
      simpa [Bool.and_eq_true, decide_eq_true_eq, and_assoc] using h
    rw [if_neg this]

/-- C9 witness: a structured 404 yields the nil sentinel; a plain
transport error is returned unchanged. -/
theorem c9_get_404_sentinel_witness :
    Client.get (.error err404) = .ok none
    ∧ Client.get (.error err500) = .error err500 :=
  ⟨(c9_get_404_sentinel err404 { status := "", networkInterfaces := [] }).1.mpr
      ⟨rfl, rfl, rfl⟩,
    (c9_get_404_sentinel err500 { status := "", networkInterfaces := [] }).2.1
      (by simp [err500])⟩

/-- `listStartsWith` characterizes list prefixes. -/
theorem listStartsWith_iff (pat s : List Char) :
    listStartsWith pat s = true ↔ ∃ t, s = pat ++ t := by
  induction pat generalizing s with
  | nil => simp [listStartsWith]
  | cons a as ih =>
    cases s with
    | nil => simp [listStartsWith]
    | cons b bs =>
      simp only [listStartsWith, Bool.and_eq_true, decide_eq_true_eq, ih]
      constructor
      · rintro ⟨rfl, t, rfl⟩
        exact ⟨t, rfl⟩
      · rintro ⟨t, heq⟩
        injection heq with e1 e2
        exact ⟨e1.symm, t, e2⟩

/-- `goContains` characterizes substring occurrence. -/
theorem goContains_iff (s pat : List Char) :
    goContains s pat = true ↔ ∃ pre t, s = pre ++ pat ++ t := by
  induction s with
  | nil =>
    simp only [goContains, Bool.or_eq_true, listStartsWith_iff]
    constructor
    · rintro (⟨t, ht⟩ | hfalse)
      · exact ⟨[], t, by simpa using ht⟩
      · cases hfalse
    · rintro ⟨pre, t, h⟩
      obtain ⟨hpp, ht⟩ := List.append_eq_nil.mp h.symm
      obtain ⟨hpre, hpat⟩ := List.append_eq_nil.mp hpp
      exact .inl ⟨t, by simp [hpat, ht]⟩
  | cons c rest ih =>
    simp only [goContains, Bool.or_eq_true, listStartsWith_iff, ih]
    constructor
    · rintro (⟨t, ht⟩ | ⟨pre, t, ht⟩)
      · exact ⟨[], t, by simpa using ht⟩
      · exact ⟨c :: pre, t, by simp [ht]⟩
    · rintro ⟨pre, t, ht⟩
      cases pre with
      | nil => exact .inl ⟨t, by simpa using ht⟩
      | cons p ps =>
        right
        rw [List.cons_append, List.cons_append] at ht
        injection ht with e1 e2
        exact ⟨ps, t, by simpa using e2⟩

/-- Character counts never decrease from a substring to its superstring. -/
theorem count_le_of_goContains (s pat : List Char) (c : Char)
    (h : goContains s pat = true) : pat.count c ≤ s.count c := by
  obtain ⟨pre, t, rfl⟩ := (goContains_iff s pat).mp h
  simp only [List.count_append]
  omega

/-- Membership transfers from a contained pattern to the string. -/
theorem mem_of_goContains (s pat : List Char) (c : Char)
    (h : goContains s pat = true) (hc : c ∈ pat) : c ∈ s := by
  obtain ⟨pre, t, rfl⟩ := (goContains_iff s pat).mp h
  simp [hc]

/-- `splitOnSlash` never returns the empty list. -/
theorem splitOnSlash_ne_nil (l : List Char) : splitOnSlash l ≠ [] := by
  cases l with
  | nil => simp [splitOnSlash]
  | cons c rest =>
    simp only [splitOnSlash]
    by_cases h : c = '/'
    · simp [h]
    · rw [if_neg h]
      cases hs : splitOnSlash rest <;> simp

/-- A slash-free list splits into itself. -/
theorem splitOnSlash_no_slash (l : List Char) (h : '/' ∉ l) :
    splitOnSlash l = [l] := by
  induction l with
  | nil => rfl
  | cons c rest ih =>
    have hc : ¬(c = '/') := fun e => h (by simp [e])
    have hr : '/' ∉ rest := fun hm => h (List.mem_cons_of_mem _ hm)
    simp [splitOnSlash, if_neg hc, ih hr]

/-- A list containing a slash splits into at least two parts. -/
theorem splitOnSlash_length_ge_two (l : List Char) (h : '/' ∈ l) :
    2 ≤ (splitOnSlash l).length := by
  induction l with
  | nil => cases h
  | cons c rest ih =>
    by_cases hc : c = '/'
    · subst hc
      simp only [splitOnSlash, if_pos rfl]
      cases hs : splitOnSlash rest with
      | nil => exact absurd hs (splitOnSlash_ne_nil rest)
      | cons hh tt => simp
    · have hr : '/' ∈ rest := by
        rcases List.mem_cons.mp h with h1 | h2
        · exact absurd h1.symm hc
        · exact h2
      have hlen := ih hr
      simp only [splitOnSlash, if_neg hc]
      cases hs : splitOnSlash rest with
      | nil => exact absurd hs (splitOnSlash_ne_nil rest)
      | cons hh tt =>
        rw [hs] at hlen
        simpa using hlen

/-- `getLastD` ignores its default on non-empty lists. -/
theorem getLastD_ne_nil {α : Type} (l : List α) (h : l ≠ []) (d1 d2 : α) :
    l.getLastD d1 = l.getLastD d2 := by
  cases l with
  | nil => exact absurd rfl h
  | cons a t => rw [List.getLastD_cons, List.getLastD_cons]

/-- The last component of splitting `a ++ '/' :: b` is `b` whenever `b` is
slash-free (for any default). -/
theorem splitOnSlash_getLastD (a b x : List Char) (hb : '/' ∉ b) :
    (splitOnSlash (a ++ '/' :: b)).getLastD x = b := by
  induction a generalizing x with
  | nil =>
    simp only [List.nil_append, splitOnSlash, if_pos rfl]
    rw [splitOnSlash_no_slash b hb]
    simp [List.getLastD_cons]
  | cons c a2 ih =>
    by_cases hc : c = '/'
    · subst hc
      have hstep : splitOnSlash ('/' :: (a2 ++ '/' :: b))
          = [] :: splitOnSlash (a2 ++ '/' :: b) := by
        simp [splitOnSlash]
      rw [List.cons_append, hstep, List.getLastD_cons]
      exact ih []
    · simp only [List.cons_append, splitOnSlash, if_neg hc]
      cases hs : splitOnSlash (a2 ++ '/' :: b) with
      | nil => exact absurd hs (splitOnSlash_ne_nil _)
      | cons hh tt =>
        rw [List.getLastD_cons]
        have h2 : 2 ≤ (splitOnSlash (a2 ++ '/' :: b)).length :=
          splitOnSlash_length_ge_two _ (by simp)
        rw [hs] at h2
        have htt : tt ≠ [] := by
          intro he
          rw [he] at h2
          simp at h2
        have hIH := ih x
        rw [hs, List.getLastD_cons] at hIH
        rw [getLastD_ne_nil tt htt (c :: hh) hh]
        exact hIH

/-- Normalizing the full-path form yields the bare name. -/
theorem extract_fullPath (project region name : List Char)
    (hn : '/' ∉ name) :
    extractSubnetName (subnetFullPath project region name) = name := by
  have hins : goContains (subnetFullPath project region name)
      "/subnetworks/".toList = true := by
    apply (goContains_iff _ _).mpr
    exact ⟨"projects/".toList ++ project ++ "/regions/".toList ++ region,
      name, by simp [subnetFullPath, List.append_assoc]⟩
  have hdecomp : subnetFullPath project region name
      = ("projects/".toList ++ project ++ "/regions/".toList ++ region
          ++ "/subnetworks".toList) ++ '/' :: name := by
    have hsplit : ("/subnetworks/".toList : List Char)
        = "/subnetworks".toList ++ ['/'] := by rfl
    rw [subnetFullPath, hsplit]
    simp [List.append_assoc]
  have hlast : (splitOnSlash (subnetFullPath project region name)).getLastD []
      = name := by
    rw [hdecomp]
    exact splitOnSlash_getLastD _ _ _ hn
  have hslash : goContains name "/".toList = false := by
    cases hg : goContains name "/".toList with
    | false => rfl
    | true => exact absurd (mem_of_goContains _ _ '/' hg (by decide)) hn
  have hc2 : ¬((goContains name "/".toList
      && !goContains name "projects/".toList) = true) := by
    rw [hslash]
    simp
  simp only [extractSubnetName]
  rw [if_pos hins, hlast, if_neg hc2]

/-- Normalizing the `region/name` form yields the bare name. -/
theorem extract_regionName (region name : List Char)
    (hr : '/' ∉ region) (hn : '/' ∉ name)
    (hp : goContains (region ++ '/' :: name) "projects/".toList = false) :
    extractSubnetName (region ++ '/' :: name) = name := by
  have hsub : goContains (region ++ '/' :: name) "/subnetworks/".toList
      = false := by
    cases hg : goContains (region ++ '/' :: name) "/subnetworks/".toList with
    | false => rfl
    | true =>
      exfalso
      have hcount := count_le_of_goContains _ _ '/' hg
      have hc1 : ("/subnetworks/".toList : List Char).count '/' = 2 := by
        decide
      have hc2 : (region ++ '/' :: name).count '/' = 1 := by
        rw [List.count_append, List.count_cons]
        have hz1 : region.count '/' = 0 := List.count_eq_zero.mpr hr
        have hz2 : name.count '/' = 0 := List.count_eq_zero.mpr hn
        simp [hz1, hz2]
      omega
  have hpair : goContains (region ++ '/' :: name) "/".toList = true := by
    apply (goContains_iff _ _).mpr
    exact ⟨region, name, by simp⟩
  have hc1 : ¬(goContains (region ++ '/' :: name) "/subnetworks/".toList
      = true) := by
    rw [hsub]
    simp
  have hc2 : (goContains (region ++ '/' :: name) "/".toList
      && !goContains (region ++ '/' :: name) "projects/".toList) = true := by
    rw [hpair, hp]
    rfl
  simp only [extractSubnetName]
  rw [if_neg hc1, if_pos hc2]
  exact splitOnSlash_getLastD _ _ _ hn

/-- Normalizing the bare form is the identity. -/
theorem extract_bare (name : List Char) (hn : '/' ∉ name) :
    extractSubnetName name = name := by
  have hsub : goContains name "/subnetworks/".toList = false := by
    cases hg : goContains name "/subnetworks/".toList with
    | false => rfl
    | true => exact absurd (mem_of_goContains _ _ '/' hg (by decide)) hn
  have hslash : goContains name "/".toList = false := by
    cases hg : goContains name "/".toList with
    | false => rfl
    | true => exact absurd (mem_of_goContains _ _ '/' hg (by decide)) hn
  have hcA : ¬(goContains name "/subnetworks/".toList = true) := by
    rw [hsub]
    simp
  have hcB : ¬((goContains name "/".toList
      && !goContains name "projects/".toList) = true) := by
    rw [hslash]
    simp
  simp only [extractSubnetName]
  rw [if_neg hcA, if_neg hcB]

/-- One NAT config satisfies the subnet exactly when it applies to all
subnets, or lists a subnetwork whose name contains the bare name as a
substring. -/
theorem natMatches_iff (bare : List Char) (nat : RouterNat) :
    natMatches bare nat = true
      ↔ (nat.sourceSubnetworkIpRangesToNat
            = some "ALL_SUBNETWORKS_ALL_IP_RANGES".toList
        ∨ (nat.sourceSubnetworkIpRangesToNat
              = some "LIST_OF_SUBNETWORKS".toList
            ∧ ∃ subs, nat.subnetworks = some subs
                ∧ ∃ sub ∈ subs, ∃ nm, sub.name = some nm
                    ∧ ∃ pre t, nm = pre ++ bare ++ t)) := by
  cases hsrc : nat.sourceSubnetworkIpRangesToNat with
  | none => simp [natMatches, hsrc]
  | some sourceType =>
    simp only [natMatches, hsrc]
    by_cases hall : sourceType = "ALL_SUBNETWORKS_ALL_IP_RANGES".toList
    · simp [hall]
    · rw [if_neg hall]
      by_cases hlist : sourceType = "LIST_OF_SUBNETWORKS".toList
      · subst hlist
        rw [if_pos rfl]
        have hne : ("LIST_OF_SUBNETWORKS".toList : List Char)
            ≠ "ALL_SUBNETWORKS_ALL_IP_RANGES".toList := by decide
        cases hsubs : nat.subnetworks with
        | none => simp [hsubs, hne]
        | some subs =>
          simp only [hsubs, List.any_eq_true, Option.some_inj]
          constructor
          · rintro ⟨sub, hmem, hsm⟩
            refine .inr ⟨by trivial, subs, by trivial, sub, hmem, ?_⟩
            cases hnm : sub.name with
            | none =>
              rw [hnm] at hsm
              simp at hsm
            | some nm =>
              rw [hnm] at hsm
              have hsm2 : goContains nm bare = true := hsm
              exact ⟨nm, rfl, (goContains_iff nm bare).mp hsm2⟩
          · rintro (hcon | ⟨-, subs2, hs2, sub, hmem, nm, hnm, hocc⟩)
            · exact absurd hcon hne
            · subst hs2
              refine ⟨sub, hmem, ?_⟩
              rw [hnm]
              show goContains nm bare = true
              exact (goContains_iff nm bare).mpr hocc
      · rw [if_neg hlist]
        constructor
        · intro hcon
          exact (Bool.false_ne_true hcon).elim
        · rintro (hcon | ⟨hcon, -⟩)
          · exact absurd (Option.some_inj.mp hcon) hall
          · exact absurd (Option.some_inj.mp hcon) hlist

/-- C8: normalizing any of the three accepted subnet-reference forms
(full resource path, `region/name`, bare name) yields the same bare
subnet name, so the NAT check returns identical findings for equivalent
inputs; and a NAT configuration satisfies the subnet exactly when it
applies to all subnets or lists a subnetwork whose name contains the
bare name as a case-sensitive substring. -/
theorem c8_normalization_and_nat_match (project region name : List Char)
    (h1 : '/' ∉ project) (h2 : '/' ∉ region) (h3 : '/' ∉ name)
    (h4 : goContains (region ++ '/' :: name) "projects/".toList = false) :
    (extractSubnetName (subnetFullPath project region name) = name
      ∧ extractSubnetName (region ++ '/' :: name) = name
      ∧ extractSubnetName name = name)
    ∧ (∀ routers : List Router,
        checkCloudNAT routers
            (extractSubnetName (subnetFullPath project region name))
          = checkCloudNAT routers (extractSubnetName name)
        ∧ checkCloudNAT routers (extractSubnetName (region ++ '/' :: name))
          = checkCloudNAT routers (extractSubnetName name))
    ∧ (∀ nat : RouterNat,
        natMatches name nat = true
          ↔ (nat.sourceSubnetworkIpRangesToNat
                = some "ALL_SUBNETWORKS_ALL_IP_RANGES".toList
            ∨ (nat.sourceSubnetworkIpRangesToNat
                  = some "LIST_OF_SUBNETWORKS".toList
                ∧ ∃ subs, nat.subnetworks = some subs
                    ∧ ∃ sub ∈ subs, ∃ nm, sub.name = some nm
                        ∧ ∃ pre t, nm = pre ++ name ++ t))) := by
  have hf := extract_fullPath project region name h3
  have hr := extract_regionName region name h2 h3 h4
  have hb := extract_bare name h3
  refine ⟨⟨hf, hr, hb⟩, ?_, fun nat => natMatches_iff name nat⟩
  intro routers
  rw [hf, hr, hb]
  exact ⟨rfl, rfl⟩

/-- C8 witness: the three concrete forms of the subnet `mysub` in region
`us-central1` of project `proj` all normalize to `mysub`. -/
theorem c8_normalization_and_nat_match_witness :
    ('/' ∉ "mysub".toList)
    ∧ extractSubnetName
        (subnetFullPath "proj".toList "us-central1".toList "mysub".toList)
      = "mysub".toList
    ∧ extractSubnetName ("us-central1".toList ++ '/' :: "mysub".toList)
      = "mysub".toList
    ∧ extractSubnetName "mysub".toList = "mysub".toList :=
  ⟨by decide,
    (c8_normalization_and_nat_match "proj".toList "us-central1".toList
      "mysub".toList (by decide) (by decide) (by decide) (by decide)).1.1,
    (c8_normalization_and_nat_match "proj".toList "us-central1".toList
      "mysub".toList (by decide) (by decide) (by decide) (by decide)).1.2.1,
    (c8_normalization_and_nat_match "proj".toList "us-central1".toList
      "mysub".toList (by decide) (by decide) (by decide) (by decide)).1.2.2⟩

end Gcloud
